import Mathlib

/-!
Shallow embedding of the plainlog asynchronous logging core
(src/plainlog/_logger.py and src/plainlog/handlers.py) in Lean 4,
together with theorems settling the frozen claims about it.

Modelling conventions:
* Python dicts with string keys become association lists (later entries
  shadow earlier ones, matching the dict-literal merge semantics of
  `\x7b**a, **b\x7d`); lookup is `pyGet`.
* A Python callable used as a preprocessor / processor can mutate the
  record, return a value (whose truthiness is what the code inspects),
  or raise.  It is modelled as a function from the record to a
  `CallOutcome`: either `ok newRecord truthy` or `raises newRecord`.
* Machine integers (level numbers, `sys.maxsize`) are `Int`;
  `sysMaxsize` is the 64-bit CPython value `2^63 - 1`.
* Side effects of the worker (handler invocations, stderr diagnostics,
  event signalling) are collected in an explicit event trace.
-/

namespace Plainlog

/-- Lookup in a Python-dict association list: the LAST binding of a key
wins, exactly as in a dict built by insertion / `\x7b**a, **b\x7d` merges. -/
def pyGet {V : Type} : List (String × V) → String → Option V
  | [], _ => none
  | kv :: rest, k =>
    match pyGet rest k with
    | some v => some v
    | none => if kv.1 = k then some kv.2 else none

/-- Level from _recattrs.py: a named tuple of numeric severity and name. -/
structure Level where
  no : Int
  name : String
deriving DecidableEq

/-- The log record dict built by Logger._log (lines 434-446 of
_logger.py).  `datetime` is an abstract clock value, `args`/`kwargs`
the raw call-site parameters. -/
structure Record (V : Type) where
  level : Level
  msg : String
  message : String
  name : String
  datetime : Nat
  processId : Int
  processName : String
  context : List (String × V)
  extra : List (String × V)
  args : List V
  kwargs : List (String × V)
deriving DecidableEq

/-- Outcome of invoking one preprocessor / processor on a record: the
callable may mutate the record and return a value whose truthiness is
`truthy`, or raise (with the mutations applied so far kept). -/
inductive CallOutcome (V : Type) where
  | ok (record : Record V) (truthy : Bool)
  | raises (record : Record V)

/-- A preprocessor or processor from the chains of Options. -/
abbrev ChainEntry (V : Type) := Record V → CallOutcome V

/-- Options from _recattrs.py: name, preprocessor chain, processor
chain, extra dict. -/
structure Options (V : Type) where
  name : String
  preprocessors : List (ChainEntry V)
  processors : List (ChainEntry V)
  extra : List (String × V)

/-- Result of the preprocessor loop in Logger._log (lines 448-452):
either all entries returned falsy (`passed`), or one returned a truthy
value (`dropped`, the call returns None), or one raised (`raised`, the
exception propagates to the caller).  `invoked` counts how many chain
entries were actually called. -/
inductive PreResult (V : Type) where
  | passed (record : Record V) (invoked : Nat)
  | dropped (record : Record V) (invoked : Nat)
  | raised (record : Record V) (invoked : Nat)

/-- Add one to the invocation counter of a `PreResult`. -/
def PreResult.bump {V : Type} : PreResult V → PreResult V
  | .passed r n => .passed r (n + 1)
  | .dropped r n => .dropped r (n + 1)
  | .raised r n => .raised r (n + 1)

/-- The preprocessor loop of Logger._log: `stop = preprocessor(log_record);
if stop: return None`.  A truthy return value stops the chain and drops
the record; an exception propagates immediately (there is no suppression
on the caller's thread). -/
def runPreprocessors {V : Type} : List (ChainEntry V) → Record V → PreResult V
  | [], r => .passed r 0
  | p :: ps, r =>
    match p r with
    | .ok r' true => .dropped r' 1
    | .ok r' false => (runPreprocessors ps r').bump
    | .raises r' => .raised r' 1

/-- The processor loop of Core._worker (lines 237-245): each entry is
wrapped in `contextlib.suppress(Exception)`, so a raising entry leaves
`stop` at its previous (falsy) value and the loop continues; a truthy
return value breaks the loop and the record is skipped. -/
def runProcessors {V : Type} : List (ChainEntry V) → Record V → Record V × Bool
  | [], r => (r, false)
  | p :: ps, r =>
    match p r with
    | .ok r' true => (r', true)
    | .ok r' false => runProcessors ps r'
    | .raises r' => runProcessors ps r'

/-- The caller-side ambient state a log call reads: the clock, the
process identity, and the current value of the `plainlog_context`
context variable. -/
structure LogEnv (V : Type) where
  now : Nat
  processId : Int
  processName : String
  context : List (String × V)

/-- The view of the Core that Logger._log reads: `core.min_level_no`
and `core.options`. -/
structure CoreView (V : Type) where
  minLevelNo : Int
  options : Options V

/-- A Logger handle: holds its own Options (the Core is passed
explicitly at each call). -/
structure Logger (V : Type) where
  options : Options V

/-- Instrumented result of one Logger._log call.  `ret` is the return
value, `raised` whether a preprocessor exception propagated,
`recordBuilt` the record dict as constructed (none on the fast exit,
which returns before construction), `presInvoked` how many
preprocessors ran, and `enqueued` what was put on the Core queue
(record plus the logger's per-call processors). -/
structure LogCall (V : Type) where
  ret : Option (Record V)
  raised : Bool
  recordBuilt : Option (Record V)
  presInvoked : Nat
  enqueued : Option (Record V × List (ChainEntry V))

/-- The record dict literal of Logger._log lines 434-446:
`extra` is `\x7b**core_extra, **extra\x7d`, `context` a copy of the
ambient context, `message` is `str(msg)`. -/
def Logger.buildRecord {V : Type} (lg : Logger V) (core : CoreView V) (env : LogEnv V)
    (level : Level) (msg : String) (args : List V) (kwargs : List (String × V)) : Record V :=
  { level := level
    msg := msg
    message := msg
    name := lg.options.name
    datetime := env.now
    processId := env.processId
    processName := env.processName
    context := env.context
    extra := core.options.extra ++ lg.options.extra
    args := args
    kwargs := kwargs }

/-- Logger._log (lines 422-456): fast exit when the level number is
strictly below the Core's minimum handler level (before the record is
built and before any preprocessor runs); otherwise build the record,
run the logger's preprocessors followed by the core's, and on a falsy
chain enqueue `(record, logger processors)` on the Core queue. -/
def Logger.plLog {V : Type} (lg : Logger V) (core : CoreView V) (env : LogEnv V)
    (level : Level) (msg : String) (args : List V) (kwargs : List (String × V)) : LogCall V :=
  if level.no < core.minLevelNo then
    { ret := none, raised := false, recordBuilt := none, presInvoked := 0, enqueued := none }
  else
    let r := Logger.buildRecord lg core env level msg args kwargs
    match runPreprocessors (lg.options.preprocessors ++ core.options.preprocessors) r with
    | .dropped _ n =>
      { ret := none, raised := false, recordBuilt := some r, presInvoked := n, enqueued := none }
    | .raised _ n =>
      { ret := none, raised := true, recordBuilt := some r, presInvoked := n, enqueued := none }
    | .passed r' n =>
      { ret := some r', raised := false, recordBuilt := some r, presInvoked := n,
        enqueued := some (r', lg.options.processors) }

/-- Logger.bind (lines 387-389): a new Logger whose extra is
`\x7b**extra, **kwargs\x7d`; the receiver is not modified. -/
def Logger.bind {V : Type} (lg : Logger V) (kwargs : List (String × V)) : Logger V :=
  { options :=
    { name := lg.options.name
      preprocessors := lg.options.preprocessors
      processors := lg.options.processors
      extra := lg.options.extra ++ kwargs } }

/-- Logger.unbind (lines 391-397): a new Logger with the given keys
removed from extra. -/
def Logger.unbind {V : Type} (lg : Logger V) (keys : List String) : Logger V :=
  { options :=
    { name := lg.options.name
      preprocessors := lg.options.preprocessors
      processors := lg.options.processors
      extra := lg.options.extra.filter (fun kv => ¬ keys.contains kv.1) } }

/-- A contextvars Token: stores the value the variable had when `set`
was called, so `reset` can restore it. -/
structure CtxToken (V : Type) where
  oldValue : List (String × V)

/-- ContextVar.set: returns a token holding the previous value. -/
def contextVarSet {V : Type} (current newValue : List (String × V)) :
    CtxToken V × List (String × V) :=
  (⟨current⟩, newValue)

/-- ContextVar.reset: restores the value stored in the token,
regardless of the current value. -/
def contextVarReset {V : Type} (token : CtxToken V) (_current : List (String × V)) :
    List (String × V) :=
  token.oldValue

/-- Logger.context (lines 402-407): sets the context variable to
`\x7b**current, **kwargs\x7d` and returns the token. -/
def Logger.context {V : Type} (kwargs current : List (String × V)) :
    CtxToken V × List (String × V) :=
  contextVarSet current (current ++ kwargs)

/-- Logger.contextualize (lines 413-420): a context manager that sets
the merged context on entry and in a `finally` block resets it via the
token, on both the normal and the exceptional exit path.  The body is
a function from the context value it observes to the context value it
leaves behind plus its outcome (normal value or exception). -/
def Logger.contextualize {V E A : Type} (kwargs : List (String × V))
    (body : List (String × V) → List (String × V) × Except E A)
    (current : List (String × V)) : List (String × V) × Except E A :=
  let st := Logger.context kwargs current
  let res := body st.2
  (contextVarReset st.1 res.1, res.2)

/-- HandlerRecord from _recattrs.py.  The handler callable either
returns or raises (`Except.error` with the exception text); `close`
models the optional `close()` attribute of the handler object: `none`
when absent, otherwise the outcome of calling it. -/
structure HandlerRecord (V : Type) where
  name : String
  level : Level
  printErrors : Bool
  handler : Record V → Except String Unit
  close : Option (Except String Unit)

/-- One observable effect of the worker thread. -/
inductive WorkerEvent (V : Type) where
  | handled (name : String) (record : Record V)
  | errorPrinted (lines : List String)
  | closeErrorPrinted (line : String)
  | eventSet
deriving Inhabited

/-- Core._print_error (lines 305-327): nothing is written when stderr
is missing or closed; otherwise a header naming the handler, the
best-effort `str(record)` (with a fallback text when `str` itself
raises), the exception traceback and a footer are written.  `strFn`
models the Python `str(record)` call, which may raise.  Write failures
(OSError) are suppressed in the source, so the model returns the lines
as a total function. -/
def printError {V : Type} (strFn : Record V → Except String String) (stderrOk : Bool)
    (record : Record V) (handlerName : String) (err : String) : List String :=
  if stderrOk then
    let recordRepr :=
      match strFn record with
      | .ok s => s
      | .error _ => "/!\\ Unprintable record /!\\"
    ["--- Logging error in Plainlog Handler " ++ handlerName ++ " ---",
     "Record was: " ++ recordRepr,
     err,
     "--- End of logging error ---"]
  else []

/-- Effects of offering one record to one registered handler in the
LOG branch of Core._worker (lines 247-253): skipped when the record's
level is below the handler's; otherwise the handler is invoked with
(a copy of) the record, and if it raises and its print_errors flag is
set the diagnostic of Core._print_error is emitted. -/
def handlerEvents {V : Type} (strFn : Record V → Except String String) (stderrOk : Bool)
    (h : HandlerRecord V) (r : Record V) : List (WorkerEvent V) :=
  if r.level.no ≥ h.level.no then
    match h.handler r with
    | .ok _ => [.handled h.name r]
    | .error ex =>
      .handled h.name r ::
        (if h.printErrors then [.errorPrinted (printError strFn stderrOk r h.name ex)] else [])
  else []

/-- Dispatch of one record to every registered handler in registration
order; a raising handler never prevents the later ones from running. -/
def dispatchLog {V : Type} (strFn : Record V → Except String String) (stderrOk : Bool) :
    List (HandlerRecord V) → Record V → List (WorkerEvent V)
  | [], _ => []
  | h :: hs, r => handlerEvents strFn stderrOk h r ++ dispatchLog strFn stderrOk hs r

/-- Dispatch of a sequence of records (successive LOG commands against
an unchanged handler list). -/
def dispatchAll {V : Type} (strFn : Record V → Except String String) (stderrOk : Bool)
    (hs : List (HandlerRecord V)) : List (Record V) → List (WorkerEvent V)
  | [] => []
  | r :: rs => dispatchLog strFn stderrOk hs r ++ dispatchAll strFn stderrOk hs rs

/-- The command protocol of the Core queue (class Command in
_logger.py).  LOG carries the record and the logger's per-call
processors; the EVENT payload (a threading.Event) is modelled by the
`eventSet` effect. -/
inductive Command (V : Type) where
  | log (record : Record V) (processors : List (ChainEntry V))
  | stop
  | addHandler (hr : HandlerRecord V)
  | removeHandler (name : Option String)
  | options (opts : Options V)
  | updateLevels
  | event

/-- Whether a command is STOP. -/
def Command.isStop {V : Type} : Command V → Bool
  | .stop => true
  | _ => false

/-- CPython sys.maxsize on a 64-bit platform, the "no handlers"
sentinel of Core._min_level_no. -/
def sysMaxsize : Int := 2 ^ 63 - 1

/-- The worker-side state of the Core: the minimum handler level
number, the handler mapping (an insertion-ordered list of uniquely
named HandlerRecords) and the shared Options.  The level registry and
the queue itself are outside the modelled state. -/
structure CoreState (V : Type) where
  minLevelNo : Int
  handlers : List (HandlerRecord V)
  options : Options V

/-- `min(levelnos, default=sys.maxsize)` over the levels of a handler
list, exactly as in the REMOVE_HANDLER branch. -/
def pyMinLevels {V : Type} (hs : List (HandlerRecord V)) : Int :=
  match hs.map (fun h => h.level.no) with
  | [] => sysMaxsize
  | x :: xs => xs.foldl min x

/-- Membership test on the handler mapping (`name in self._handlers`). -/
def hasName {V : Type} (hs : List (HandlerRecord V)) (n : String) : Bool :=
  hs.any (fun h => h.name == n)

/-- Diagnostics of the `handler.close()` call in the REMOVE_HANDLER
branch (lines 283-291): a raising close is isolated, and reported on
stderr when the handler's print_errors flag is set. -/
def closeEvents {V : Type} (hr : HandlerRecord V) : List (WorkerEvent V) :=
  match hr.close with
  | some (Except.error ex) =>
    if hr.printErrors then
      [.closeErrorPrinted ("Error in handler.close(). Handler: " ++ hr.name ++ " Error: " ++ ex)]
    else []
  | _ => []

/-- One iteration of the REMOVE_HANDLER loop (lines 274-291): a name
not present is skipped; otherwise the entry is popped, the minimum
level recomputed over the survivors, and close() called with its
errors isolated. -/
def removeStep {V : Type} (acc : List (HandlerRecord V) × Int × List (WorkerEvent V))
    (hn : String) : List (HandlerRecord V) × Int × List (WorkerEvent V) :=
  match acc.1.find? (fun h => h.name == hn) with
  | none => acc
  | some hr =>
    let hs' := acc.1.filter (fun h => h.name != hn)
    (hs', pyMinLevels hs', acc.2.2 ++ closeEvents hr)

/-- One step of Core._worker on a dequeued command (lines 234-303).
The STOP case is unreachable through `Core.runWorker`, which breaks
the loop before stepping it. -/
def Core.step {V : Type} (strFn : Record V → Except String String) (stderrOk : Bool)
    (s : CoreState V) (c : Command V) : CoreState V × List (WorkerEvent V) :=
  match c with
  | .log r procs =>
    let pr := runProcessors (procs ++ s.options.processors) r
    if pr.2 then (s, []) else (s, dispatchLog strFn stderrOk s.handlers pr.1)
  | .stop => (s, [])
  | .addHandler hr =>
    if hasName s.handlers hr.name then (s, [])
    else
      ({ minLevelNo := min s.minLevelNo hr.level.no
         handlers := s.handlers ++ [hr]
         options := s.options }, [])
  | .removeHandler nameOpt =>
    let names : List String :=
      match nameOpt with
      | none => s.handlers.map (fun h => h.name)
      | some n => [n]
    let res := names.foldl removeStep (s.handlers, s.minLevelNo, [])
    ({ minLevelNo := res.2.1, handlers := res.1, options := s.options }, res.2.2)
  | .options opts => ({ s with options := opts }, [])
  | .updateLevels => (s, [])
  | .event => (s, [.eventSet])

/-- The worker main loop on a finite FIFO command trace: commands are
stepped in order until STOP is dequeued, at which point the loop
breaks and everything still queued is abandoned. -/
def Core.runWorker {V : Type} (strFn : Record V → Except String String) (stderrOk : Bool) :
    List (Command V) → CoreState V → CoreState V × List (WorkerEvent V)
  | [], s => (s, [])
  | c :: cs, s =>
    if c.isStop then (s, [])
    else
      let p := Core.step strFn stderrOk s c
      let q := Core.runWorker strFn stderrOk cs p.1
      (q.1, p.2 ++ q.2)

/-- Unconditional processing of a command trace (no STOP handling);
used to state that a STOP-free trace is processed in full. -/
def Core.runAll {V : Type} (strFn : Record V → Except String String) (stderrOk : Bool) :
    List (Command V) → CoreState V → CoreState V × List (WorkerEvent V)
  | [], s => (s, [])
  | c :: cs, s =>
    let p := Core.step strFn stderrOk s c
    let q := Core.runAll strFn stderrOk cs p.1
    (q.1, p.2 ++ q.2)

/-- Append on a collections.deque with a maxlen: when the deque is
full the oldest element is discarded from the opposite end. -/
def dequeAppend {α : Type} (l : List α) (x : α) (maxlen : Nat) : List α :=
  let l' := l ++ [x]
  if maxlen < l'.length then l'.drop (l'.length - maxlen) else l'

/-- FingersCrossedHandler state from handlers.py (lines 117-153):
action level, the bounded buffer deque, its maxlen, the triggered
flag and the reset option. -/
structure FingersCrossedHandler (V : Type) where
  level : Int
  bufferedRecords : List (Record V)
  maxlen : Nat
  actionTriggered : Bool
  reset : Bool
deriving DecidableEq

/-- FingersCrossedHandler.__init__ with explicit action level, buffer
size and reset flag (defaults in the source: 40, 1, False). -/
def FingersCrossedHandler.init (V : Type) (actionLevel : Int) (bufferSize : Nat)
    (reset : Bool) : FingersCrossedHandler V :=
  { level := actionLevel
    bufferedRecords := []
    maxlen := bufferSize
    actionTriggered := false
    reset := reset }

/-- FingersCrossedHandler.enqueue: when triggered, forward the record
to the inner handler immediately (second component of the result
collects inner-handler deliveries); otherwise append it to the bounded
buffer — evicting the oldest on overflow — and report whether its
level reaches the action level. -/
def FingersCrossedHandler.enqueue {V : Type} (s : FingersCrossedHandler V) (r : Record V) :
    FingersCrossedHandler V × Bool × List (Record V) :=
  if s.actionTriggered then (s, false, [r])
  else
    ({ s with bufferedRecords := dequeAppend s.bufferedRecords r s.maxlen },
     decide (r.level.no ≥ s.level), [])

/-- FingersCrossedHandler.rollover: flush the buffer oldest-first to
the inner handler and latch the triggered flag (unless reset). -/
def FingersCrossedHandler.rollover {V : Type} (s : FingersCrossedHandler V) :
    FingersCrossedHandler V × List (Record V) :=
  ({ s with bufferedRecords := [], actionTriggered := !s.reset }, s.bufferedRecords)

/-- FingersCrossedHandler.__call__: enqueue, then rollover when the
enqueue signalled the action level. -/
def FingersCrossedHandler.call {V : Type} (s : FingersCrossedHandler V) (r : Record V) :
    FingersCrossedHandler V × List (Record V) :=
  let eq := s.enqueue r
  if eq.2.1 then
    let ro := eq.1.rollover
    (ro.1, eq.2.2 ++ ro.2)
  else (eq.1, eq.2.2)

/-- Submit a sequence of records to a FingersCrossedHandler,
collecting everything the wrapped inner handler receives, in order. -/
def FingersCrossedHandler.runCalls {V : Type} :
    FingersCrossedHandler V → List (Record V) → FingersCrossedHandler V × List (Record V)
  | s, [] => (s, [])
  | s, r :: rs =>
    let p := s.call r
    let q := p.1.runCalls rs
    (q.1, p.2 ++ q.2)

end Plainlog

open Plainlog

/-- Dict-merge lookup: in `a ++ b` (the model of a Python
`\x7b**a, **b\x7d` merge) the right dict wins on key collisions. -/
theorem pyGet_append {V : Type} (a b : List (String × V)) (k : String) :
    pyGet (a ++ b) k =
      match pyGet b k with
      | some v => some v
      | none => pyGet a k := by
  induction a with
  | nil =>
    cases h : pyGet b k <;> simp [pyGet, h]
  | cons kv rest ih =>
    simp only [List.cons_append, pyGet, List.append_eq]
    rw [ih]
    cases h : pyGet b k <;> cases h2 : pyGet rest k <;> simp [h, h2]

/-- Inversion for Logger.plLog: whenever a record was constructed, it
is exactly the dict literal of lines 434-446. -/
theorem plLog_recordBuilt_eq {V : Type} (lg : Logger V) (cv : CoreView V) (env : LogEnv V)
    (level : Level) (msg : String) (args : List V) (kwargs : List (String × V)) (r : Record V)
    (h : (lg.plLog cv env level msg args kwargs).recordBuilt = some r) :
    r = Logger.buildRecord lg cv env level msg args kwargs := by
  unfold Logger.plLog at h
  split at h
  · simp at h
  · dsimp only at h
    cases hpre : runPreprocessors (lg.options.preprocessors ++ cv.options.preprocessors)
        (lg.buildRecord cv env level msg args kwargs) <;>
      rw [hpre] at h <;> simp_all

/-- Appending one handler to the Python min-with-default computation. -/
theorem pyMinLevels_append {V : Type} (hs : List (HandlerRecord V)) (hr : HandlerRecord V)
    (hb : hr.level.no ≤ sysMaxsize) :
    pyMinLevels (hs ++ [hr]) = min (pyMinLevels hs) hr.level.no := by
  cases hs with
  | nil => simp [pyMinLevels, min_eq_right hb]
  | cons h t => simp [pyMinLevels, List.foldl_append]

/-- The REMOVE_HANDLER loop keeps the minimum level equal to the
recomputed minimum over the surviving handlers. -/
theorem removeFold_min_inv {V : Type} (names : List String) :
    ∀ (hs : List (HandlerRecord V)) (mn : Int) (evs : List (WorkerEvent V)),
      mn = pyMinLevels hs →
      (names.foldl removeStep (hs, mn, evs)).2.1 =
        pyMinLevels (names.foldl removeStep (hs, mn, evs)).1 := by
  induction names with
  | nil => intro hs mn evs h; simpa using h
  | cons n ns ih =>
    intro hs mn evs h
    simp only [List.foldl_cons]
    unfold removeStep
    cases hfind : hs.find? (fun x => x.name == n) with
    | none => simpa using ih hs mn evs h
    | some hr => simpa using ih _ _ _ rfl

/-- A handler whose level threshold is met is invoked on the record,
whatever any handler in the list does. -/
theorem mem_dispatchLog {V : Type} (strFn : Record V → Except String String) (stderrOk : Bool)
    (hs : List (HandlerRecord V)) (r : Record V) (h : HandlerRecord V)
    (hmem : h ∈ hs) (hlvl : r.level.no ≥ h.level.no) :
    WorkerEvent.handled h.name r ∈ dispatchLog strFn stderrOk hs r := by
  induction hs with
  | nil => cases hmem
  | cons h0 t ih =>
    rcases List.mem_cons.mp hmem with rfl | hmem'
    · apply List.mem_append_left
      unfold handlerEvents
      rw [if_pos hlvl]
      cases hh : h.handler r <;> simp
    · exact List.mem_append_right _ (ih hmem')

/-- A raising handler with print_errors set contributes the
Core._print_error diagnostic to the dispatch trace. -/
theorem mem_dispatchLog_error {V : Type} (strFn : Record V → Except String String)
    (stderrOk : Bool) (hs : List (HandlerRecord V)) (r : Record V) (h : HandlerRecord V)
    (ex : String) (hmem : h ∈ hs) (hlvl : r.level.no ≥ h.level.no)
    (herr : h.handler r = .error ex) (hpe : h.printErrors = true) :
    WorkerEvent.errorPrinted (printError strFn stderrOk r h.name ex) ∈
      dispatchLog strFn stderrOk hs r := by
  induction hs with
  | nil => cases hmem
  | cons h0 t ih =>
    rcases List.mem_cons.mp hmem with rfl | hmem'
    · apply List.mem_append_left
      unfold handlerEvents
      rw [if_pos hlvl, herr, hpe]
      simp
    · exact List.mem_append_right _ (ih hmem')

/-- Every record of a dispatched sequence reaches every handler whose
threshold it meets. -/
theorem mem_dispatchAll {V : Type} (strFn : Record V → Except String String) (stderrOk : Bool)
    (hs : List (HandlerRecord V)) (rs : List (Record V)) (r : Record V) (h : HandlerRecord V)
    (hr : r ∈ rs) (hmem : h ∈ hs) (hlvl : r.level.no ≥ h.level.no) :
    WorkerEvent.handled h.name r ∈ dispatchAll strFn stderrOk hs rs := by
  induction rs with
  | nil => cases hr
  | cons r0 t ih =>
    rcases List.mem_cons.mp hr with rfl | hr'
    · exact List.mem_append_left _ (mem_dispatchLog strFn stderrOk hs r h hmem hlvl)
    · exact List.mem_append_right _ (ih hr')

/-- A STOP-free trace is processed in full by the worker loop. -/
theorem runWorker_eq_runAll {V : Type} (strFn : Record V → Except String String)
    (stderrOk : Bool) (cs : List (Command V)) :
    ∀ s : CoreState V, (∀ c ∈ cs, Command.isStop c = false) →
      Core.runWorker strFn stderrOk cs s = Core.runAll strFn stderrOk cs s := by
  induction cs with
  | nil => intro s _; rfl
  | cons c t ih =>
    intro s h
    have hc : Command.isStop c = false := h c (List.mem_cons_self c t)
    have ht : ∀ x ∈ t, Command.isStop x = false := fun x hx => h x (List.mem_cons_of_mem c hx)
    simp only [Core.runWorker, Core.runAll, hc, Bool.false_eq_true, if_false]
    rw [ih _ ht]

/-- Everything queued after STOP is abandoned: the loop on
`before ++ STOP :: after` behaves exactly like full processing of
`before`. -/
theorem runWorker_stop_split {V : Type} (strFn : Record V → Except String String)
    (stderrOk : Bool) (cs₁ cs₂ : List (Command V)) :
    ∀ s : CoreState V, (∀ c ∈ cs₁, Command.isStop c = false) →
      Core.runWorker strFn stderrOk (cs₁ ++ Command.stop :: cs₂) s =
        Core.runAll strFn stderrOk cs₁ s := by
  induction cs₁ with
  | nil => intro s _; simp [Core.runWorker, Core.runAll, Command.isStop]
  | cons c t ih =>
    intro s h
    have hc : Command.isStop c = false := h c (List.mem_cons_self c t)
    have ht : ∀ x ∈ t, Command.isStop x = false := fun x hx => h x (List.mem_cons_of_mem c hx)
    simp only [List.cons_append, Core.runWorker, Core.runAll, hc, Bool.false_eq_true, if_false,
      List.append_eq]
    rw [ih _ ht]

/-- Submitting records splits over list append. -/
theorem runCalls_append {V : Type} (xs ys : List (Record V)) :
    ∀ s : FingersCrossedHandler V,
      s.runCalls (xs ++ ys) =
        (((s.runCalls xs).1.runCalls ys).1,
          (s.runCalls xs).2 ++ ((s.runCalls xs).1.runCalls ys).2) := by
  induction xs with
  | nil => intro s; simp [FingersCrossedHandler.runCalls]
  | cons x t ih =>
    intro s
    simp only [List.cons_append, FingersCrossedHandler.runCalls, List.append_eq]
    rw [ih]
    simp [List.append_assoc]

/-- FingersCrossedHandler in buffering state on a record below the
action level: the record is buffered (evicting the oldest on
overflow) and nothing reaches the inner handler. -/
theorem fch_call_low {V : Type} (s : FingersCrossedHandler V) (r : Record V)
    (hs : s.actionTriggered = false) (hr : ¬ r.level.no ≥ s.level) :
    s.call r =
      ({ s with bufferedRecords := dequeAppend s.bufferedRecords r s.maxlen }, []) := by
  simp [FingersCrossedHandler.call, FingersCrossedHandler.enqueue, hs, hr]

/-- FingersCrossedHandler in buffering state on a record at or above
the action level: the record is first appended to the bounded buffer
and then the whole buffer (the trigger included) is flushed
oldest-first to the inner handler. -/
theorem fch_call_high {V : Type} (s : FingersCrossedHandler V) (r : Record V)
    (hs : s.actionTriggered = false) (hr : r.level.no ≥ s.level) :
    s.call r =
      ({ s with bufferedRecords := [], actionTriggered := !s.reset },
        dequeAppend s.bufferedRecords r s.maxlen) := by
  simp [FingersCrossedHandler.call, FingersCrossedHandler.enqueue,
    FingersCrossedHandler.rollover, hs, hr]

/-- A run of records all below the action level, starting from a
buffering state, only fills the bounded buffer: nothing reaches the
inner handler and the buffer is the fold of bounded appends. -/
theorem runCalls_low {V : Type} (ds : List (Record V)) :
    ∀ s : FingersCrossedHandler V, s.actionTriggered = false →
      (∀ d ∈ ds, ¬ d.level.no ≥ s.level) →
      s.runCalls ds =
        ({ s with bufferedRecords :=
            ds.foldl (fun b d => dequeAppend b d s.maxlen) s.bufferedRecords }, []) := by
  induction ds with
  | nil => intro s _ _; simp [FingersCrossedHandler.runCalls]
  | cons d t ih =>
    intro s hs hd
    simp only [FingersCrossedHandler.runCalls]
    rw [fch_call_low s d hs (hd d (List.mem_cons_self d t))]
    dsimp only
    rw [ih { s with bufferedRecords := dequeAppend s.bufferedRecords d s.maxlen } hs
      (fun x hx => hd x (List.mem_cons_of_mem d hx))]
    simp [List.foldl_cons]

/-- A concrete record over Nat values, for closed evaluations. -/
def natRecord (lvNo : Int) (lvName : String) (i : Nat) : Record Nat :=
  { level := ⟨lvNo, lvName⟩
    msg := "m"
    message := "m"
    name := "root"
    datetime := i
    processId := 1
    processName := "MainProcess"
    context := []
    extra := []
    args := []
    kwargs := [] }

/-- A DEBUG-level (10) record. -/
def debugRecord (i : Nat) : Record Nat := natRecord 10 "DEBUG" i

/-- An ERROR-level (40) record. -/
def errorRecord (i : Nat) : Record Nat := natRecord 40 "ERROR" i

/-- A chain entry that returns the record unchanged — in Python a
truthy (non-empty dict) return value, the convention of every function
in processors.py (for example preprocess_exc_info, the sole member of
DEFAULT_PREPROCESSORS). -/
def entryReturnsRecord : ChainEntry Nat := fun r => .ok r true

/-- A chain entry that returns an empty dict — a falsy return value,
the drop convention of the filters in processors.py (filter_all,
filter_by_name, ...). -/
def entryReturnsEmptyDict : ChainEntry Nat := fun r => .ok r false

/-- A chain entry that raises without mutating the record. -/
def entryRaises : ChainEntry Nat := fun r => .raises r

/-- A concrete Logger over Nat values. -/
def mkLogger (pres : List (ChainEntry Nat)) (extra : List (String × Nat)) : Logger Nat :=
  ⟨{ name := "root", preprocessors := pres, processors := [], extra := extra }⟩

/-- A Core whose minimum handler level is DEBUG (10). -/
def lowCore : CoreView Nat :=
  { minLevelNo := 10
    options := { name := "CORE", preprocessors := [], processors := [], extra := [] } }

/-- A Core whose minimum handler level is WARNING (30). -/
def highCore : CoreView Nat :=
  { minLevelNo := 30
    options := { name := "CORE", preprocessors := [], processors := [], extra := [] } }

/-- A Core with a configured extra dict, minimum level DEBUG. -/
def coreWithExtra : CoreView Nat :=
  { minLevelNo := 10
    options := { name := "CORE", preprocessors := [], processors := [],
                 extra := [("a", 10), ("c", 30)] } }

/-- A concrete caller-side environment with empty ambient context. -/
def sampleEnv : LogEnv Nat :=
  { now := 0, processId := 1, processName := "MainProcess", context := [] }

/-- The INFO level. -/
def levelINFO : Level := ⟨20, "INFO"⟩

/-- C1.  The claim (and section 6 of the spec) says a falsy or empty
return value from a preprocessor/processor drops the record and a
truthy record return lets it proceed.  Logger._log lines 448-452 and
Core._worker lines 237-245 implement the opposite: `stop = p(record);
if stop: ...` drops on a TRUTHY return and continues on a falsy one.
Evaluated at the failing input — one preprocessor behaving like
preprocess_exc_info of DEFAULT_PREPROCESSORS, which returns the
(truthy) record — the INFO call is dropped and nothing is enqueued,
while a preprocessor returning the empty (falsy) dict lets the record
through to the queue.  Under the code's convention the library's own
default processor chains would therefore drop every record. -/
theorem truthy_return_drops_record_failing_input :
    ((mkLogger [entryReturnsRecord] []).plLog lowCore sampleEnv levelINFO "hello" [] []).enqueued
        = none
    ∧ ((mkLogger [entryReturnsRecord] []).plLog lowCore sampleEnv levelINFO "hello" [] []).ret
        = none
    ∧ ((mkLogger [entryReturnsEmptyDict] []).plLog lowCore sampleEnv levelINFO "hello" [] []
        ).enqueued.isSome = true
    ∧ ((mkLogger [entryReturnsEmptyDict] []).plLog lowCore sampleEnv levelINFO "hello" [] []
        ).ret.isSome = true
    ∧ ((mkLogger [entryReturnsEmptyDict] []).plLog lowCore sampleEnv levelINFO "hello" [] []
        ).presInvoked = 1 :=
  ⟨rfl, rfl, rfl, rfl, rfl⟩

/-- C2 counterexample.  With buffer size 3 and action threshold ERROR,
submitting 3 DEBUG records and then 1 ERROR record makes the wrapped
inner handler receive THREE records, not four as claimed: the
triggering ERROR record is appended into the bounded deque before the
flush, evicting the oldest DEBUG record. -/
theorem fingers_crossed_three_debug_one_error_flushes_three :
    (((FingersCrossedHandler.init Nat 40 3 false).runCalls
        [debugRecord 1, debugRecord 2, debugRecord 3, errorRecord 4]).2 =
      [debugRecord 2, debugRecord 3, errorRecord 4])
    ∧ (((FingersCrossedHandler.init Nat 40 3 false).runCalls
        [debugRecord 1, debugRecord 2, debugRecord 3, errorRecord 4]).2.length ≠ 4) :=
  ⟨rfl, by decide⟩

/-- C2 amended.  For a FingersCrossedHandler with buffer size 3 and
action threshold ERROR (40): 3 sub-threshold records followed by one
at/above the threshold make the inner handler receive exactly the 3
most recent records — the 2 most recent DEBUG records and the ERROR
record, in original submission order — because the triggering record
itself is appended into the bounded buffer (evicting the oldest DEBUG
record) before the flush; and a 4th DEBUG record submitted before any
ERROR evicts the oldest buffered record, so the buffer always holds
only the most recent 3 records and nothing is flushed. -/
theorem fingers_crossed_buffer_evicts_triggering_included {V : Type}
    (d₁ d₂ d₃ d₄ e : Record V)
    (h₁ : d₁.level.no < 40) (h₂ : d₂.level.no < 40) (h₃ : d₃.level.no < 40)
    (h₄ : d₄.level.no < 40) (he : e.level.no ≥ 40) :
    ((FingersCrossedHandler.init V 40 3 false).runCalls [d₁, d₂, d₃, e]).2 = [d₂, d₃, e]
    ∧ ((FingersCrossedHandler.init V 40 3 false).runCalls [d₁, d₂, d₃, d₄]).2 = []
    ∧ ((FingersCrossedHandler.init V 40 3 false).runCalls
        [d₁, d₂, d₃, d₄]).1.bufferedRecords = [d₂, d₃, d₄] := by
  have hlow3 : ∀ d ∈ [d₁, d₂, d₃],
      ¬ d.level.no ≥ (FingersCrossedHandler.init V 40 3 false).level := by
    intro d hd
    simp only [List.mem_cons, List.not_mem_nil, or_false] at hd
    rcases hd with rfl | rfl | rfl
    · exact not_le.mpr h₁
    · exact not_le.mpr h₂
    · exact not_le.mpr h₃
  have hlow4 : ∀ d ∈ [d₁, d₂, d₃, d₄],
      ¬ d.level.no ≥ (FingersCrossedHandler.init V 40 3 false).level := by
    intro d hd
    simp only [List.mem_cons, List.not_mem_nil, or_false] at hd
    rcases hd with rfl | rfl | rfl | rfl
    · exact not_le.mpr h₁
    · exact not_le.mpr h₂
    · exact not_le.mpr h₃
    · exact not_le.mpr h₄
  have hbuf3 := runCalls_low [d₁, d₂, d₃] (FingersCrossedHandler.init V 40 3 false) rfl hlow3
  have hbuf4 := runCalls_low [d₁, d₂, d₃, d₄] (FingersCrossedHandler.init V 40 3 false) rfl hlow4
  refine ⟨?_, ?_, ?_⟩
  · rw [show [d₁, d₂, d₃, e] = [d₁, d₂, d₃] ++ [e] from rfl, runCalls_append, hbuf3]
    simp only [FingersCrossedHandler.init, List.foldl_cons, List.foldl_nil]
    rw [show FingersCrossedHandler.runCalls
        { level := 40, bufferedRecords := dequeAppend (dequeAppend (dequeAppend [] d₁ 3) d₂ 3) d₃ 3,
          maxlen := 3, actionTriggered := false, reset := false } [e] =
        (let p := FingersCrossedHandler.call
            { level := 40, bufferedRecords := dequeAppend (dequeAppend (dequeAppend [] d₁ 3) d₂ 3) d₃ 3,
              maxlen := 3, actionTriggered := false, reset := false } e;
          let q := FingersCrossedHandler.runCalls p.1 [];
          (q.1, p.2 ++ q.2)) from rfl]
    rw [fch_call_high _ e rfl he]
    simp [dequeAppend, FingersCrossedHandler.runCalls]
  · rw [hbuf4]
  · rw [hbuf4]
    simp [FingersCrossedHandler.init, dequeAppend]

/-- Witness for the amended C2 theorem at concrete DEBUG/ERROR records. -/
theorem fingers_crossed_buffer_evicts_triggering_included_witness :
    ((debugRecord 1).level.no < 40 ∧ (errorRecord 9).level.no ≥ 40)
    ∧ ((FingersCrossedHandler.init Nat 40 3 false).runCalls
        [debugRecord 1, debugRecord 2, debugRecord 3, errorRecord 9]).2 =
      [debugRecord 2, debugRecord 3, errorRecord 9] :=
  ⟨⟨by decide, by decide⟩,
    (fingers_crossed_buffer_evicts_triggering_included (debugRecord 1) (debugRecord 2)
      (debugRecord 3) (debugRecord 4) (errorRecord 9) (by decide) (by decide) (by decide)
      (by decide) (by decide)).1⟩

/-- C3.  A log call whose level number is strictly below the Core's
current minimum handler level returns None immediately: no record is
constructed, no preprocessor is invoked, and nothing is enqueued, so
the event never reaches the worker or any handler. -/
theorem fast_exit_below_min_level {V : Type} (lg : Logger V) (cv : CoreView V) (env : LogEnv V)
    (level : Level) (msg : String) (args : List V) (kwargs : List (String × V))
    (h : level.no < cv.minLevelNo) :
    lg.plLog cv env level msg args kwargs =
      { ret := none, raised := false, recordBuilt := none, presInvoked := 0, enqueued := none } := by
  unfold Logger.plLog
  rw [if_pos h]

/-- Witness for C3: an INFO (20) call against a Core whose minimum
handler level is WARNING (30); the configured preprocessor would drop
the record if it ever ran, and indeed zero preprocessors run. -/
theorem fast_exit_below_min_level_witness :
    levelINFO.no < highCore.minLevelNo
    ∧ (mkLogger [entryReturnsRecord] []).plLog highCore sampleEnv levelINFO "x" [] [] =
        { ret := none, raised := false, recordBuilt := none, presInvoked := 0, enqueued := none } :=
  ⟨by decide, fast_exit_below_min_level _ _ _ _ _ _ _ (by decide)⟩

/-- C4 counterexample.  A raising preprocessor is NOT isolated and the
chain does NOT continue: with the chain [raising entry, harmless
entry], the log call propagates the exception (`raised = true`), only
ONE of the two entries was invoked, and nothing is enqueued. -/
theorem preprocessor_exception_propagates_counterexample :
    ((mkLogger [entryRaises, entryReturnsEmptyDict] []).plLog lowCore sampleEnv levelINFO
        "x" [] []).raised = true
    ∧ ((mkLogger [entryRaises, entryReturnsEmptyDict] []).plLog lowCore sampleEnv levelINFO
        "x" [] []).presInvoked = 1
    ∧ ((mkLogger [entryRaises, entryReturnsEmptyDict] []).plLog lowCore sampleEnv levelINFO
        "x" [] []).enqueued = none :=
  ⟨rfl, rfl, rfl⟩

/-- C4 amended.  Exception isolation is split by chain kind: a
PROCESSOR that raises inside the worker is isolated per entry — the
chain continues with the subsequent entries and the LOG step proceeds
exactly as if the chain had started after the raising entry; a
PREPROCESSOR that raises on the caller's thread propagates the
exception out of the log call, skipping the remaining entries, and
nothing is enqueued — so the exception never reaches, and can never
crash, the worker thread. -/
theorem exception_isolation_amended {V : Type} (p : ChainEntry V) (ps : List (ChainEntry V))
    (r r' : Record V) (hp : p r = .raises r') :
    runProcessors (p :: ps) r = runProcessors ps r'
    ∧ (∀ (strFn : Record V → Except String String) (so : Bool) (s : CoreState V),
        Core.step strFn so s (Command.log r (p :: ps)) =
          Core.step strFn so s (Command.log r' ps))
    ∧ runPreprocessors (p :: ps) r = PreResult.raised r' 1
    ∧ (∀ (lg : Logger V) (cv : CoreView V) (env : LogEnv V) (level : Level) (msg : String)
        (args : List V) (kwargs : List (String × V)),
        lg.options.preprocessors = p :: ps →
        Logger.buildRecord lg cv env level msg args kwargs = r →
        ¬ level.no < cv.minLevelNo →
        lg.plLog cv env level msg args kwargs =
          { ret := none, raised := true, recordBuilt := some r, presInvoked := 1,
            enqueued := none }) := by
  have key : ∀ qs : List (ChainEntry V), runProcessors (p :: qs) r = runProcessors qs r' := by
    intro qs
    simp [runProcessors, hp]
  have key2 : ∀ qs : List (ChainEntry V),
      runPreprocessors (p :: qs) r = PreResult.raised r' 1 := by
    intro qs
    simp [runPreprocessors, hp]
  refine ⟨key ps, ?_, key2 ps, ?_⟩
  · intro strFn so s
    simp only [Core.step, List.cons_append]
    rw [key (ps ++ s.options.processors)]
  · intro lg cv env level msg args kwargs hpre hrec hlt
    unfold Logger.plLog
    rw [if_neg hlt]
    dsimp only
    rw [hrec, hpre, List.cons_append, key2 (ps ++ cv.options.preprocessors)]

/-- Witness for the amended C4 theorem: a concrete raising entry
followed by a harmless one; the worker chain continues past it, the
caller chain reports the exception after one invocation. -/
theorem exception_isolation_amended_witness :
    entryRaises (debugRecord 1) = CallOutcome.raises (debugRecord 1)
    ∧ runProcessors [entryRaises, entryReturnsEmptyDict] (debugRecord 1) =
        runProcessors [entryReturnsEmptyDict] (debugRecord 1)
    ∧ runPreprocessors [entryRaises, entryReturnsEmptyDict] (debugRecord 1) =
        PreResult.raised (debugRecord 1) 1 :=
  ⟨rfl,
   (exception_isolation_amended entryRaises [entryReturnsEmptyDict] (debugRecord 1)
     (debugRecord 1) rfl).1,
   (exception_isolation_amended entryRaises [entryReturnsEmptyDict] (debugRecord 1)
     (debugRecord 1) rfl).2.2.1⟩

/-- C5.  During dispatch of a LOG command, a handler whose level
threshold is met is always invoked with the record, regardless of what
any other handler does; if it raises and its print_errors flag is set,
the Core._print_error diagnostic — handler name, best-effort string
representation of the record (with a fixed fallback text when str()
itself raises), and the exception — appears on the stderr trace; and a
handler meeting the threshold receives every record of a dispatched
sequence.  The error reporting itself is a total function of the model
(the source suppresses the OSError a stderr write can raise). -/
theorem handler_error_isolation {V : Type} (strFn : Record V → Except String String)
    (hs : List (HandlerRecord V)) (r : Record V) (h : HandlerRecord V)
    (hmem : h ∈ hs) (hlvl : r.level.no ≥ h.level.no) :
    WorkerEvent.handled h.name r ∈ dispatchLog strFn true hs r
    ∧ (∀ ex, h.handler r = .error ex → h.printErrors = true →
        WorkerEvent.errorPrinted (printError strFn true r h.name ex) ∈
          dispatchLog strFn true hs r)
    ∧ (∀ ex rep, strFn r = .ok rep →
        printError strFn true r h.name ex =
          ["--- Logging error in Plainlog Handler " ++ h.name ++ " ---",
           "Record was: " ++ rep, ex, "--- End of logging error ---"])
    ∧ (∀ ex em, strFn r = .error em →
        printError strFn true r h.name ex =
          ["--- Logging error in Plainlog Handler " ++ h.name ++ " ---",
           "Record was: " ++ "/!\\ Unprintable record /!\\", ex,
           "--- End of logging error ---"])
    ∧ (∀ rs, r ∈ rs → WorkerEvent.handled h.name r ∈ dispatchAll strFn true hs rs) := by
  refine ⟨mem_dispatchLog strFn true hs r h hmem hlvl, ?_, ?_, ?_, ?_⟩
  · intro ex he hpe
    exact mem_dispatchLog_error strFn true hs r h ex hmem hlvl he hpe
  · intro ex rep hok
    simp [printError, hok]
  · intro ex em herr
    simp [printError, herr]
    rfl
  · intro rs hr
    exact mem_dispatchAll strFn true hs rs r h hr hmem hlvl

/-- A handler that raises on every record, print_errors set. -/
def badHandler : HandlerRecord Nat :=
  { name := "bad", level := ⟨10, "DEBUG"⟩, printErrors := true,
    handler := fun _ => .error "boom", close := none }

/-- A well-behaved handler registered after the raising one. -/
def goodHandler : HandlerRecord Nat :=
  { name := "good", level := ⟨10, "DEBUG"⟩, printErrors := true,
    handler := fun _ => .ok (), close := none }

/-- A str() model that always succeeds. -/
def okStrFn : Record Nat → Except String String := fun _ => .ok "record"

/-- Witness for C5: with [raising handler, good handler], the good
handler still receives the record, and the raising handler's
diagnostic is printed. -/
theorem handler_error_isolation_witness :
    goodHandler ∈ [badHandler, goodHandler]
    ∧ (debugRecord 1).level.no ≥ goodHandler.level.no
    ∧ WorkerEvent.handled goodHandler.name (debugRecord 1) ∈
        dispatchLog okStrFn true [badHandler, goodHandler] (debugRecord 1)
    ∧ WorkerEvent.errorPrinted (printError okStrFn true (debugRecord 1) badHandler.name "boom") ∈
        dispatchLog okStrFn true [badHandler, goodHandler] (debugRecord 1) := by
  have hmemg : goodHandler ∈ [badHandler, goodHandler] :=
    List.mem_cons_of_mem _ (List.mem_cons_self _ _)
  have hmemb : badHandler ∈ [badHandler, goodHandler] := List.mem_cons_self _ _
  refine ⟨hmemg, by decide, ?_, ?_⟩
  · exact (handler_error_isolation okStrFn [badHandler, goodHandler] (debugRecord 1)
      goodHandler hmemg (by decide)).1
  · exact (handler_error_isolation okStrFn [badHandler, goodHandler] (debugRecord 1)
      badHandler hmemb (by decide)).2.1 "boom" rfl rfl

/-- C6.  bind returns a Logger whose extra is the dict merge of the
receiver's extra with the given fields, the given fields winning on
key collisions; and the receiver is unchanged: a record built by a log
call on the original Logger contains a key of extra only if the
Logger's own extra or the Core's configured extra contains it. -/
theorem bind_merges_without_mutation {V : Type} (lg : Logger V) (F : List (String × V))
    (k : String) (cv : CoreView V) (env : LogEnv V) (level : Level) (msg : String)
    (args : List V) (kwargs : List (String × V)) :
    (pyGet (lg.bind F).options.extra k =
      match pyGet F k with
      | some v => some v
      | none => pyGet lg.options.extra k)
    ∧ (∀ r, (lg.plLog cv env level msg args kwargs).recordBuilt = some r →
        pyGet lg.options.extra k = none → pyGet cv.options.extra k = none →
        pyGet r.extra k = none) := by
  constructor
  · show pyGet (lg.options.extra ++ F) k = _
    exact pyGet_append lg.options.extra F k
  · intro r hr h1 h2
    have hre := plLog_recordBuilt_eq lg cv env level msg args kwargs r hr
    subst hre
    show pyGet (cv.options.extra ++ lg.options.extra) k = none
    rw [pyGet_append, h1]
    simpa using h2

/-- A concrete Logger with one bound field. -/
def bindLogger : Logger Nat := mkLogger [] [("a", 1)]

/-- Concrete fields passed to bind, colliding on "a". -/
def bindF : List (String × Nat) := [("a", 2), ("b", 3)]

/-- Witness for C6: after bind, "a" maps to the new value and "b" is
present; a record built on the ORIGINAL Logger has no "b". -/
theorem bind_merges_without_mutation_witness :
    pyGet (bindLogger.bind bindF).options.extra "a" = some 2
    ∧ pyGet (bindLogger.bind bindF).options.extra "b" = some 3
    ∧ pyGet (Logger.buildRecord bindLogger lowCore sampleEnv levelINFO "m" [] []).extra "b"
        = none := by
  refine ⟨?_, ?_, ?_⟩
  · exact (bind_merges_without_mutation bindLogger bindF "a" lowCore sampleEnv levelINFO
      "m" [] []).1.trans (by rfl)
  · exact (bind_merges_without_mutation bindLogger bindF "b" lowCore sampleEnv levelINFO
      "m" [] []).1.trans (by rfl)
  · exact (bind_merges_without_mutation bindLogger bindF "b" lowCore sampleEnv levelINFO
      "m" [] []).2 _ rfl rfl rfl

/-- C7.  contextualize merges the given fields into the ambient
context on entry (the body observes the merged dict, given fields
winning), restores the previous context on EVERY exit path — the
outcome, normal or exceptional, is passed through unchanged while the
context comes back to its pre-entry value, even if the body itself
reassigned the context variable —, nested blocks compose in LIFO
order, a record built inside the block carries the fields in its
context, and a record built after the block (under the restored
context) does not. -/
theorem contextualize_scoped_restore {V E A : Type} (kwargs ctx : List (String × V))
    (body : List (String × V) → List (String × V) × Except E A) :
    (Logger.contextualize kwargs body ctx).1 = ctx
    ∧ (Logger.contextualize kwargs body ctx).2 = (body (ctx ++ kwargs)).2
    ∧ (∀ (kw₂ : List (String × V))
        (body₂ : List (String × V) → List (String × V) × Except E A),
        Logger.contextualize kwargs (fun c => Logger.contextualize kw₂ body₂ c) ctx =
          (ctx, (body₂ ((ctx ++ kwargs) ++ kw₂)).2))
    ∧ (∀ (lg : Logger V) (cv : CoreView V) (env : LogEnv V) (level : Level) (msg : String)
        (args : List V) (kwargs' : List (String × V)) (r : Record V) (k : String) (v : V),
        env.context = ctx ++ kwargs →
        (lg.plLog cv env level msg args kwargs').recordBuilt = some r →
        pyGet kwargs k = some v → pyGet r.context k = some v)
    ∧ (∀ (lg : Logger V) (cv : CoreView V) (env : LogEnv V) (level : Level) (msg : String)
        (args : List V) (kwargs' : List (String × V)) (r : Record V) (k : String),
        env.context = ctx →
        (lg.plLog cv env level msg args kwargs').recordBuilt = some r →
        pyGet ctx k = none → pyGet r.context k = none) := by
  refine ⟨rfl, rfl, fun kw₂ body₂ => rfl, ?_, ?_⟩
  · intro lg cv env level msg args kwargs' r k v hctx hr hk
    have hre := plLog_recordBuilt_eq lg cv env level msg args kwargs' r hr
    subst hre
    show pyGet env.context k = some v
    rw [hctx, pyGet_append, hk]
  · intro lg cv env level msg args kwargs' r k hctx hr hk
    have hre := plLog_recordBuilt_eq lg cv env level msg args kwargs' r hr
    subst hre
    show pyGet env.context k = none
    rw [hctx]
    exact hk

/-- A block body that reassigns the context variable and exits with an
exception. -/
def ctxBody : List (String × Nat) → List (String × Nat) × Except Unit Unit :=
  fun c => (c ++ [("inner", 7)], Except.error ())

/-- An environment whose ambient context is the merge produced inside
`contextualize req=1` over an outer context x=0. -/
def ctxEnv : LogEnv Nat :=
  { now := 0, processId := 1, processName := "MainProcess", context := [("x", 0), ("req", 1)] }

/-- Witness for C7: an exceptional exit restores the outer context,
the outcome passes through, and a record built inside the block
carries the contextualized field. -/
theorem contextualize_scoped_restore_witness :
    (Logger.contextualize [("req", 1)] ctxBody [("x", 0)]).1 = [("x", 0)]
    ∧ (Logger.contextualize [("req", 1)] ctxBody [("x", 0)]).2 = Except.error ()
    ∧ pyGet (Logger.buildRecord (mkLogger [] []) lowCore ctxEnv levelINFO "m" [] []).context
        "req" = some 1 := by
  refine ⟨?_, ?_, ?_⟩
  · exact (contextualize_scoped_restore [("req", 1)] [("x", 0)] ctxBody).1
  · exact (contextualize_scoped_restore [("req", 1)] [("x", 0)] ctxBody).2.1.trans (by rfl)
  · exact (contextualize_scoped_restore [("req", 1)] [("x", 0)] ctxBody).2.2.2.1
      (mkLogger [] []) lowCore ctxEnv levelINFO "m" [] []
      (Logger.buildRecord (mkLogger [] []) lowCore ctxEnv levelINFO "m" [] []) "req" 1
      rfl rfl rfl

/-- C8.  After every worker command the Core's minimum level number
equals the Python `min(levels, default=sys.maxsize)` over the
registered handlers (the sentinel when none remain): ADD_HANDLER with
an already-present name is a no-op, ADD_HANDLER with a fresh name
appends the handler and the incremental `min(old, new)` coincides with
the recomputed minimum, and REMOVE_HANDLER recomputes the minimum over
the survivors, falling back to the sentinel when none remain.  Handler
levels come from the level registry, whose numeric range lies below
the sentinel, hence the level bound hypotheses. -/
theorem worker_min_level_invariant {V : Type} (strFn : Record V → Except String String)
    (so : Bool) (s : CoreState V) (c : Command V)
    (hInv : s.minLevelNo = pyMinLevels s.handlers)
    (hc : ∀ hr, c = Command.addHandler hr → hr.level.no ≤ sysMaxsize) :
    (Core.step strFn so s c).1.minLevelNo = pyMinLevels (Core.step strFn so s c).1.handlers
    ∧ (∀ hr, hasName s.handlers hr.name = true →
        Core.step strFn so s (Command.addHandler hr) = (s, []))
    ∧ (∀ hr, hasName s.handlers hr.name = false → hr.level.no ≤ sysMaxsize →
        (Core.step strFn so s (Command.addHandler hr)).1.handlers = s.handlers ++ [hr]
        ∧ (Core.step strFn so s (Command.addHandler hr)).1.minLevelNo =
            pyMinLevels (s.handlers ++ [hr]))
    ∧ ((Core.step strFn so s c).1.handlers = [] →
        (Core.step strFn so s c).1.minLevelNo = sysMaxsize) := by
  have main : (Core.step strFn so s c).1.minLevelNo =
      pyMinLevels (Core.step strFn so s c).1.handlers := by
    cases c with
    | log r procs =>
      simp only [Core.step]
      split <;> simpa using hInv
    | stop => simpa [Core.step] using hInv
    | addHandler hr =>
      simp only [Core.step]
      by_cases hn : hasName s.handlers hr.name
      · rw [if_pos hn]
        simpa using hInv
      · rw [if_neg hn]
        dsimp only
        rw [hInv, pyMinLevels_append s.handlers hr (hc hr rfl)]
    | removeHandler nameOpt =>
      simp only [Core.step]
      exact removeFold_min_inv _ s.handlers s.minLevelNo [] hInv
    | options opts => simpa [Core.step] using hInv
    | updateLevels => simpa [Core.step] using hInv
    | event => simpa [Core.step] using hInv
  refine ⟨main, ?_, ?_, ?_⟩
  · intro hr hn
    simp only [Core.step]
    rw [if_pos hn]
  · intro hr hn hb
    have hn' : ¬ hasName s.handlers hr.name = true := by simp [hn]
    constructor
    · simp only [Core.step]
      rw [if_neg hn']
    · simp only [Core.step]
      rw [if_neg hn']
      dsimp only
      rw [hInv, pyMinLevels_append s.handlers hr hb]
  · intro hempty
    rw [main, hempty]
    rfl

/-- A concrete well-behaved DEBUG-level handler named "a". -/
def sampleHandlerA : HandlerRecord Nat :=
  { name := "a", level := ⟨10, "DEBUG"⟩, printErrors := true,
    handler := fun _ => .ok (), close := none }

/-- A concrete well-behaved WARNING-level handler named "b". -/
def sampleHandlerB : HandlerRecord Nat :=
  { name := "b", level := ⟨30, "WARNING"⟩, printErrors := true,
    handler := fun _ => .ok (), close := none }

/-- A concrete worker state holding handler "a", minimum level 10. -/
def sampleState : CoreState Nat :=
  { minLevelNo := 10
    handlers := [sampleHandlerA]
    options := { name := "CORE", preprocessors := [], processors := [], extra := [] } }

/-- Witness for C8 at a concrete state: adding handler "b" preserves
the invariant, and re-adding the present name "a" is a no-op. -/
theorem worker_min_level_invariant_witness :
    sampleState.minLevelNo = pyMinLevels sampleState.handlers
    ∧ (Core.step okStrFn true sampleState (Command.addHandler sampleHandlerB)).1.minLevelNo =
        pyMinLevels
          (Core.step okStrFn true sampleState (Command.addHandler sampleHandlerB)).1.handlers
    ∧ Core.step okStrFn true sampleState (Command.addHandler sampleHandlerA) =
        (sampleState, []) := by
  have hc : ∀ hr, Command.addHandler sampleHandlerB = Command.addHandler hr →
      hr.level.no ≤ sysMaxsize := by
    intro hr h
    cases h
    decide
  refine ⟨rfl, ?_, ?_⟩
  · exact (worker_min_level_invariant okStrFn true sampleState
      (Command.addHandler sampleHandlerB) rfl hc).1
  · exact (worker_min_level_invariant okStrFn true sampleState
      (Command.addHandler sampleHandlerB) rfl hc).2.1 sampleHandlerA rfl

/-- C9.  On a FIFO trace `before ++ STOP :: after` where `before` is
STOP-free, the worker loop behaves exactly like unconditional
processing of `before` — every LOG command enqueued before the STOP
(in particular everything enqueued before Core.close, whose barrier,
REMOVE_HANDLER and STOP commands come after them in the queue) is
stepped, and so dispatched to the then-registered handlers, before the
thread terminates — while nothing queued behind the STOP is ever
processed. -/
theorem stop_abandons_tail_drains_prior {V : Type} (strFn : Record V → Except String String)
    (so : Bool) (cs₁ cs₂ : List (Command V)) (s : CoreState V)
    (h : ∀ c ∈ cs₁, Command.isStop c = false) :
    Core.runWorker strFn so (cs₁ ++ Command.stop :: cs₂) s = Core.runAll strFn so cs₁ s
    ∧ Core.runWorker strFn so cs₁ s = Core.runAll strFn so cs₁ s :=
  ⟨runWorker_stop_split strFn so cs₁ cs₂ s h, runWorker_eq_runAll strFn so cs₁ s h⟩

/-- Witness for C9: a LOG and an EVENT before STOP are fully
processed, a LOG after STOP is abandoned. -/
theorem stop_abandons_tail_drains_prior_witness :
    (∀ c ∈ ([Command.log (debugRecord 1) [], Command.event] : List (Command Nat)),
      Command.isStop c = false)
    ∧ Core.runWorker okStrFn true
        ([Command.log (debugRecord 1) [], Command.event] ++
          Command.stop :: [Command.log (debugRecord 2) []]) sampleState =
        Core.runAll okStrFn true
          [Command.log (debugRecord 1) [], Command.event] sampleState := by
  have hstop : ∀ c ∈ ([Command.log (debugRecord 1) [], Command.event] : List (Command Nat)),
      Command.isStop c = false := by
    intro c hc
    simp only [List.mem_cons, List.not_mem_nil, or_false] at hc
    rcases hc with rfl | rfl <;> rfl
  exact ⟨hstop,
    (stop_abandons_tail_drains_prior okStrFn true _ _ sampleState hstop).1⟩

/-- C10.  Every record built by a log call has
`extra = \x7b**core_extra, **logger_extra\x7d`: the dict merge of the
Core's configured extra and the Logger's bound extra, the Logger's
bound extra winning on key collisions. -/
theorem record_extra_merge_logger_wins {V : Type} (lg : Logger V) (cv : CoreView V)
    (env : LogEnv V) (level : Level) (msg : String) (args : List V)
    (kwargs : List (String × V)) (r : Record V)
    (h : (lg.plLog cv env level msg args kwargs).recordBuilt = some r) :
    r.extra = cv.options.extra ++ lg.options.extra
    ∧ ∀ k, pyGet r.extra k =
        match pyGet lg.options.extra k with
        | some v => some v
        | none => pyGet cv.options.extra k := by
  have hre := plLog_recordBuilt_eq lg cv env level msg args kwargs r h
  subst hre
  exact ⟨rfl, fun k => pyGet_append cv.options.extra lg.options.extra k⟩

/-- Witness for C10: the Logger's bound a=1 beats the Core's a=10,
while the Core's c=30 shows through. -/
theorem record_extra_merge_logger_wins_witness :
    (bindLogger.plLog coreWithExtra sampleEnv levelINFO "m" [] []).recordBuilt =
      some (Logger.buildRecord bindLogger coreWithExtra sampleEnv levelINFO "m" [] [])
    ∧ pyGet (Logger.buildRecord bindLogger coreWithExtra sampleEnv levelINFO "m" [] []).extra
        "a" = some 1
    ∧ pyGet (Logger.buildRecord bindLogger coreWithExtra sampleEnv levelINFO "m" [] []).extra
        "c" = some 30 := by
  refine ⟨rfl, ?_, ?_⟩
  · exact ((record_extra_merge_logger_wins bindLogger coreWithExtra sampleEnv levelINFO
      "m" [] [] _ rfl).2 "a").trans (by rfl)
  · exact ((record_extra_merge_logger_wins bindLogger coreWithExtra sampleEnv levelINFO
      "m" [] [] _ rfl).2 "c").trans (by rfl)
